import Mathlib

/-!
Verification development for the AV-Scanner-for-Linux repository.

The two source files (`hasher.py`, `entropy.py`) are shallowly embedded
below.  Pure string/path logic is translated function-for-function; the
process pool and the `os.walk` traversal are modelled by an explicit run
state: a submitted task's eventual worker result (`hash_one`) is computed
at submission time and stored in the `futures` list, and draining consumes
entries from that list.  Counters and the multiset of written records do
not depend on the completion order used by `as_completed`, so the model
determinizes completion order to queue (submission) order.  The filesystem
is an explicit parameter (`FS`): `read p = none` models any I/O error
(including mid-read failures, where the partial digest is discarded), and
`isReg` models `os.lstat` + `S_ISREG` with stat failures mapped to `false`,
exactly as `is_regular_file` does.  The blake2b hex digest itself is an
abstract parameter `hashHex : List Nat → String` of the byte content;
chunked reading of the whole file is hashing of the whole byte list.
-/

namespace AVScan

/-- Settings from hasher.py: SUBMIT_BATCH = 5000. -/
def SUBMIT_BATCH : Nat := 5000

/-- Settings from hasher.py: PROGRESS_EVERY = 200 (flush cadence; observational only). -/
def PROGRESS_EVERY : Nat := 200

/-- POSIX os.sep. -/
def osSep : String := "/"

/-- Python str.startswith, at character level: s.startswith(pre). -/
def pyStartswith (s pre : String) : Bool :=
  pre.data.isPrefixOf s.data

/-- Python str.endswith, at character level: s.endswith(suf). -/
def pyEndswith (s suf : String) : Bool :=
  suf.data.isSuffixOf s.data

/-- hasher.py `path_on_skipped_mount(path, skip_mounts)`.  The source first
computes `ap = os.path.abspath(path)`; the embedding's first argument is
that absolute form.  It then returns True iff `ap == m` or
`ap.startswith(m + os.sep)` for some excluded mountpoint `m`. -/
def path_on_skipped_mount (ap : String) (skip_mounts : List String) : Bool :=
  skip_mounts.any (fun m => ap == m || pyStartswith ap (m ++ osSep))

/-- Spec-side notion, for comparison with `path_on_skipped_mount`: the
absolute path equals the mountpoint, or lies strictly inside it via a
path-separator-bounded prefix (the remainder after the mountpoint starts
at a component boundary). -/
def under_mount_spec (ap m : String) : Bool :=
  ap == m ||
    (ap != m && pyStartswith ap (if pyEndswith m osSep then m else m ++ osSep))

/-- Abstract filesystem: `isReg p` is `os.lstat(p)` succeeding with
`S_ISREG` (stat failure = false, as in `is_regular_file`); `read p` is the
full byte content, `none` modelling any I/O error during open/read. -/
structure FS where
  isReg : String → Bool
  read : String → Option (List Nat)

/-- hasher.py `is_regular_file(path)`: lstat-based regular-file test,
OSError mapped to False. -/
def is_regular_file (fs : FS) (path : String) : Bool :=
  fs.isReg path

/-- hasher.py `check_hash(digest)`: placeholder classification stub. -/
def check_hash (_digest : String) : Bool × String :=
  (false, "DUMMY_REASON")

/-- hasher.py `blake2b_file(path)`: streams the file content into a
blake2b hash and returns the hex digest, or None on any exception during
open/read.  `hashHex` is the abstract blake2b-hex function of the full
byte content (chunked updates over the whole file equal one update with
the concatenation). -/
def blake2b_file (hashHex : List Nat → String) (fs : FS) (path : String) :
    Option String :=
  match fs.read path with
  | some bs => some (hashHex bs)
  | none => none

/-- hasher.py `hash_one((path, skip_mounts))`: worker entry point.
Re-checks mount exclusion and the regular-file test inside the worker and
returns `(path, digest-or-None)`. -/
def hash_one (hashHex : List Nat → String) (fs : FS) (path : String)
    (skip_mounts : List String) : String × Option String :=
  if path_on_skipped_mount path skip_mounts then (path, none)
  else if !is_regular_file fs path then (path, none)
  else (path, blake2b_file hashHex fs path)

/-- Python truthiness of the `digest` variable in `if digest:` inside
`drain`: None and the empty string are falsy. -/
def pyTruthy : Option String → Bool
  | none => false
  | some s => s != ""

/-- The f-string written by `drain`:
f"{digest} {'TRUE' if boolean else 'FALSE'} {reason}\n". -/
def formatRecord (digest : String) (b : Bool) (reason : String) : String :=
  digest ++ (" " ++ ((if b then "TRUE" else "FALSE") ++ (" " ++ (reason ++ "\n"))))

/-- Coordinator state of `hash_all`: the run counters, the in-flight
futures (each carrying the worker's eventual `(path, digest-or-None)`
result), and the lines appended to the output file. -/
structure RunState where
  submitted : Nat
  done : Nat
  errors : Nat
  futures : List (String × Option String)
  records : List String
deriving DecidableEq

/-- Initial coordinator state of `hash_all`. -/
def initState : RunState :=
  { submitted := 0, done := 0, errors := 0, futures := [], records := [] }

/-- Body of the `for fut in as_completed(...)` loop in `drain`, for one
completed future (whose removal from `futures` is done by the caller):
a truthy digest is classified by `check_hash` and one record line is
appended; otherwise `errors` is incremented; `done` always increments. -/
def drainStep (st : RunState) (r : String × Option String) : RunState :=
  if pyTruthy r.2 then
    let d := r.2.getD ""
    let br := check_hash d
    { st with records := st.records ++ [formatRecord d br.1 br.2],
              done := st.done + 1 }
  else
    { st with errors := st.errors + 1, done := st.done + 1 }

/-- hasher.py `drain(n)`: consumes up to `n` completed futures (the
snapshot `futures[:n]`), removing each from the in-flight list.  Completion
order is determinized to queue order; counters and the record multiset do
not depend on it. -/
def drainN : Nat → RunState → RunState
  | 0, st => st
  | n + 1, st =>
    match st.futures with
    | [] => st
    | f :: rest => drainN n (drainStep { st with futures := rest } f)

/-- hasher.py `drain()` with `n=None`: consumes every in-flight future. -/
def drainAll (st : RunState) : RunState :=
  drainN st.futures.length st

/-- One iteration of the inner submission loop of `hash_all`: submit
`hash_one` for the path, append the future, increment `submitted`, and
when `submitted % SUBMIT_BATCH == 0` synchronously `drain(SUBMIT_BATCH // 2)`. -/
def submitOne (hashHex : List Nat → String) (fs : FS) (skip : List String)
    (st : RunState) (path : String) : RunState :=
  if (st.submitted + 1) % SUBMIT_BATCH == 0 then
    drainN (SUBMIT_BATCH / 2)
      { st with futures := st.futures ++ [hash_one hashHex fs path skip],
                submitted := st.submitted + 1 }
  else
    { st with futures := st.futures ++ [hash_one hashHex fs path skip],
              submitted := st.submitted + 1 }

/-- posixpath.join(a, b) for the two-argument call `os.path.join(dirpath, name)`. -/
def pyJoin (a b : String) : String :=
  if pyStartswith b osSep then b
  else if a == "" || pyEndswith a osSep then a ++ b
  else a ++ (osSep ++ b)

/-- The file paths produced by the `os.walk(root, followlinks=False)` loop
of `hash_all`, from the walk's `(dirpath, dirnames, filenames)` output
(modelled as the list of `(dirpath, filenames)` pairs in walk order):
every filename is joined to its dirpath and submitted, with no filtering
at submission time. -/
def walkPaths : List (String × List String) → List String
  | [] => []
  | (d, ns) :: rest => ns.map (fun n => pyJoin d n) ++ walkPaths rest

/-- hasher.py `hash_all(root, out_file, workers)`: walk the tree submitting
every discovered file (with periodic batch drains inside `submitOne`),
then a final full drain of the remaining futures. -/
def hash_all (hashHex : List Nat → String) (fs : FS) (skip : List String)
    (entries : List (String × List String)) : RunState :=
  drainAll ((walkPaths entries).foldl (submitOne hashHex fs skip) initState)

/-- posixpath.basename: the part after the last separator. -/
def basename (p : String) : String :=
  (p.splitOn osSep).getLastD ""

/-- collections.Counter(data) as an association list: each distinct byte
value with its multiplicity. -/
def counter (data : List Nat) : List (Nat × Nat) :=
  data.dedup.map (fun b => (b, data.count b))

/-- Outcome of entropy.py `print_entropy()`: exactly one line is printed
and the function returns; no exception escapes.  The `report` constructor
carries the byte-frequency table and length from which the Shannon entropy
is computed and printed (the floating-point rendering itself is outside
the embedding). -/
inductive EntropyOutput where
  | usage (prog : String)
  | readError (path : String)
  | emptyFile (path : String)
  | report (path : String) (counts : List (Nat × Nat)) (length : Nat)
deriving DecidableEq

/-- entropy.py `print_entropy()`: argv-length guard, read guard, empty-file
guard (returning before any entropy computation), and otherwise the
entropy report over `Counter(data)` and `len(data)`. -/
def print_entropy (fs : FS) (argv : List String) : EntropyOutput :=
  if argv.length < 2 then .usage (basename (argv.getD 0 ""))
  else
    let path := argv.getD 1 ""
    match fs.read path with
    | none => .readError path
    | some data =>
      if data = [] then .emptyFile path
      else .report path (counter data) data.length

/-- Separator-splitting of a character sequence, for stating the
component structure of a relative path (structural counterpart of
splitting on "/"). -/
def splitSep : List Char → List (List Char)
  | [] => [[]]
  | c :: cs =>
    if c = '/' then [] :: splitSep cs
    else
      match splitSep cs with
      | [] => [[c]]
      | g :: gs => (c :: g) :: gs

/-- Byte content of "hello". -/
def helloBytes : List Nat := [104, 101, 108, 108, 111]

/-- Byte content of "world". -/
def worldBytes : List Nat := [119, 111, 114, 108, 100]

/-- Filesystem of the end-to-end scenario: regular files /r/a.txt and
/r/b.txt with content "hello", /r/sub/c.txt with content "world", and the
symbolic link /r/link (not a regular file under lstat). -/
def fs4 : FS where
  isReg := fun p => p == "/r/a.txt" || p == "/r/b.txt" || p == "/r/sub/c.txt"
  read := fun p =>
    if p == "/r/a.txt" || p == "/r/b.txt" then some helloBytes
    else if p == "/r/sub/c.txt" then some worldBytes
    else none

/-- Walk output of the end-to-end scenario: os.walk lists the root first
(the symlink `link` to the regular file a.txt lands in `filenames`, since
the walk's dir/nondir split follows symlinks), then the subdirectory. -/
def entries4 : List (String × List String) :=
  [("/r", ["a.txt", "b.txt", "link"]), ("/r/sub", ["c.txt"])]

/-! Structural lemmas about the drain/submit loop. -/

theorem drainStep_futures (st : RunState) (r : String × Option String) :
    (drainStep st r).futures = st.futures := by
  unfold drainStep; split <;> rfl

theorem drainStep_submitted (st : RunState) (r : String × Option String) :
    (drainStep st r).submitted = st.submitted := by
  unfold drainStep; split <;> rfl

theorem drainStep_done (st : RunState) (r : String × Option String) :
    (drainStep st r).done = st.done + 1 := by
  unfold drainStep; split <;> rfl

theorem drainStep_acc (st : RunState) (r : String × Option String) :
    (drainStep st r).errors + (drainStep st r).records.length
      = st.errors + st.records.length + 1 := by
  unfold drainStep; split <;> simp <;> omega

theorem drainN_submitted (n : Nat) : ∀ st : RunState,
    (drainN n st).submitted = st.submitted := by
  induction n with
  | zero => intro st; rfl
  | succ n ih =>
    intro st
    cases hf : st.futures with
    | nil => simp [drainN, hf]
    | cons f rest => simp [drainN, hf, ih, drainStep_submitted]

theorem drainN_length (n : Nat) : ∀ st : RunState,
    (drainN n st).futures.length = st.futures.length - n := by
  induction n with
  | zero => intro st; simp [drainN]
  | succ n ih =>
    intro st
    cases hf : st.futures with
    | nil => simp [drainN, hf]
    | cons f rest =>
      have h := ih (drainStep { st with futures := rest } f)
      rw [drainStep_futures] at h
      simp [drainN, hf, h]

theorem drainN_inv (n : Nat) : ∀ st : RunState,
    st.done + st.futures.length = st.submitted →
    st.done = st.errors + st.records.length →
    (drainN n st).done + (drainN n st).futures.length = (drainN n st).submitted ∧
    (drainN n st).done = (drainN n st).errors + (drainN n st).records.length := by
  induction n with
  | zero => intro st h1 h2; exact ⟨h1, h2⟩
  | succ n ih =>
    intro st h1 h2
    cases hf : st.futures with
    | nil => rw [show drainN (n + 1) st = st by simp [drainN, hf]]; exact ⟨h1, h2⟩
    | cons f rest =>
      rw [show drainN (n + 1) st = drainN n (drainStep { st with futures := rest } f) by
        simp [drainN, hf]]
      apply ih
      · rw [drainStep_done, drainStep_futures, drainStep_submitted]
        simp only [hf, List.length_cons] at h1
        simp
        omega
      · have ha := drainStep_acc { st with futures := rest } f
        rw [drainStep_done]
        simp only at ha ⊢
        omega

theorem submitOne_submitted (hashHex : List Nat → String) (fs : FS)
    (skip : List String) (st : RunState) (path : String) :
    (submitOne hashHex fs skip st path).submitted = st.submitted + 1 := by
  unfold submitOne
  split
  · rw [drainN_submitted]
  · rfl

theorem submitOne_length (hashHex : List Nat → String) (fs : FS)
    (skip : List String) (st : RunState) (path : String) :
    (submitOne hashHex fs skip st path).futures.length =
      if (st.submitted + 1) % SUBMIT_BATCH == 0
      then st.futures.length + 1 - SUBMIT_BATCH / 2
      else st.futures.length + 1 := by
  unfold submitOne
  split <;> rename_i hc
  · rw [drainN_length]
    simp [hc]
  · simp [hc]

theorem submitOne_inv (hashHex : List Nat → String) (fs : FS)
    (skip : List String) (st : RunState) (path : String)
    (h1 : st.done + st.futures.length = st.submitted)
    (h2 : st.done = st.errors + st.records.length) :
    (submitOne hashHex fs skip st path).done
        + (submitOne hashHex fs skip st path).futures.length
      = (submitOne hashHex fs skip st path).submitted ∧
    (submitOne hashHex fs skip st path).done
      = (submitOne hashHex fs skip st path).errors
        + (submitOne hashHex fs skip st path).records.length := by
  unfold submitOne
  split
  · apply drainN_inv
    · simp; omega
    · simpa using h2
  · constructor
    · simp; omega
    · simpa using h2

theorem foldl_submitOne_inv (hashHex : List Nat → String) (fs : FS)
    (skip : List String) : ∀ (paths : List String) (st : RunState),
    st.done + st.futures.length = st.submitted →
    st.done = st.errors + st.records.length →
    (paths.foldl (submitOne hashHex fs skip) st).done
        + (paths.foldl (submitOne hashHex fs skip) st).futures.length
      = (paths.foldl (submitOne hashHex fs skip) st).submitted ∧
    (paths.foldl (submitOne hashHex fs skip) st).done
      = (paths.foldl (submitOne hashHex fs skip) st).errors
        + (paths.foldl (submitOne hashHex fs skip) st).records.length := by
  intro paths
  induction paths with
  | nil => intro st h1 h2; exact ⟨h1, h2⟩
  | cons p ps ih =>
    intro st h1 h2
    have h := submitOne_inv hashHex fs skip st p h1 h2
    exact ih (submitOne hashHex fs skip st p) h.1 h.2

theorem foldl_submitOne_sched (hashHex : List Nat → String) (fs : FS)
    (skip : List String) : ∀ (paths : List String) (st : RunState),
    st.futures.length
      = st.submitted - SUBMIT_BATCH / 2 * (st.submitted / SUBMIT_BATCH) →
    (paths.foldl (submitOne hashHex fs skip) st).submitted
        = st.submitted + paths.length ∧
    (paths.foldl (submitOne hashHex fs skip) st).futures.length
      = (st.submitted + paths.length)
          - SUBMIT_BATCH / 2 * ((st.submitted + paths.length) / SUBMIT_BATCH) := by
  intro paths
  induction paths with
  | nil =>
    intro st h
    refine ⟨by simp, ?_⟩
    simpa using h
  | cons p ps ih =>
    intro st h
    have hs := submitOne_submitted hashHex fs skip st p
    have hl := submitOne_length hashHex fs skip st p
    have hinv : (submitOne hashHex fs skip st p).futures.length
        = (submitOne hashHex fs skip st p).submitted
            - SUBMIT_BATCH / 2
                * ((submitOne hashHex fs skip st p).submitted / SUBMIT_BATCH) := by
      rw [hs, hl]
      simp only [SUBMIT_BATCH] at h ⊢
      split <;> rename_i hc
      · have hc' : (st.submitted + 1) % 5000 = 0 := by simpa using hc
        omega
      · have hc' : ¬ (st.submitted + 1) % 5000 = 0 := by simpa using hc
        omega
    have hrec := ih (submitOne hashHex fs skip st p) hinv
    rw [hs] at hrec
    refine ⟨?_, ?_⟩
    · rw [List.foldl_cons, hrec.1]; simp; omega
    · rw [List.foldl_cons, hrec.2]
      simp only [SUBMIT_BATCH, List.length_cons]
      omega

/-! Generic helper lemmas. -/

theorem formatRecord_stub (d : String) :
    formatRecord d false "DUMMY_REASON" = d ++ " FALSE DUMMY_REASON\n" := by
  unfold formatRecord
  exact congrArg (fun x => d ++ x) (by decide)

theorem isPrefixOf_self_append (l t : List Char) :
    l.isPrefixOf (l ++ t) = true := by
  simp only [ List.isPrefixOf_iff_prefix]
  exact List.prefix_append l t

theorem isPrefixOf_append_right (l p t : List Char)
    (h : l.isPrefixOf p = true) : l.isPrefixOf (p ++ t) = true := by
  simp only [ List.isPrefixOf_iff_prefix] at h ⊢
  exact h.trans (List.prefix_append p t)

/-! Claim theorems. -/

/-- C1 (counterexample): the claim that in-flight never exceeds
SUBMIT_BATCH plus the pool size fails.  Walking a tree of 15000 files with
the configured pool size 4 leaves 7500 tasks in flight at the end of the
walk (before the final full drain), and 7500 exceeds SUBMIT_BATCH + 4:
each periodic drain removes only SUBMIT_BATCH / 2 = 2500 tasks, not half
of the in-flight set. -/
theorem C1_counterexample :
    ((walkPaths [("/d", (List.range 15000).map (fun i => toString i))]).foldl
        (submitOne (fun _ => "x") ⟨fun _ => false, fun _ => none⟩ [])
        initState).futures.length = 7500
    ∧ ¬ (7500 ≤ SUBMIT_BATCH + 4) := by
  have hlen :
      (walkPaths [("/d", (List.range 15000).map (fun i => toString i))]).length
        = 15000 := by
    simp [walkPaths]
  have h := foldl_submitOne_sched (fun _ => "x") ⟨fun _ => false, fun _ => none⟩ []
      (walkPaths [("/d", (List.range 15000).map (fun i => toString i))]) initState
      (by simp [initState])
  rw [hlen] at h
  refine ⟨?_, by simp [SUBMIT_BATCH]⟩
  rw [h.2]
  simp [initState, SUBMIT_BATCH]

/-- C1 (amended): each periodic drain removes exactly SUBMIT_BATCH / 2
tasks (half of the submission batch, not half of the in-flight set), so
after the walk has submitted the discovered paths the in-flight count is
`paths.length - SUBMIT_BATCH / 2 * (paths.length / SUBMIT_BATCH)` — about
half the number of submitted tasks, growing linearly with tree size
rather than staying bounded by SUBMIT_BATCH plus the pool size. -/
theorem C1_inflight_linear (hashHex : List Nat → String) (fs : FS)
    (skip : List String) (paths : List String) :
    (paths.foldl (submitOne hashHex fs skip) initState).futures.length
      = paths.length - SUBMIT_BATCH / 2 * (paths.length / SUBMIT_BATCH) := by
  have h := foldl_submitOne_sched hashHex fs skip paths initState
    (by simp [initState])
  simpa [initState] using h.2

/-- C2: for every run of hash_all, every submitted task is drained exactly
once: after the final full drain the future list is empty and the counters
satisfy done = submitted and done = errors + (number of records written),
so the run-end ok count (done - errors) equals the number of successful
digests. -/
theorem C2_exactly_once_accounting (hashHex : List Nat → String) (fs : FS)
    (skip : List String) (entries : List (String × List String)) :
    (hash_all hashHex fs skip entries).done
        = (hash_all hashHex fs skip entries).submitted
    ∧ (hash_all hashHex fs skip entries).done
        = (hash_all hashHex fs skip entries).errors
          + (hash_all hashHex fs skip entries).records.length
    ∧ (hash_all hashHex fs skip entries).futures = [] := by
  unfold hash_all drainAll
  set st := (walkPaths entries).foldl (submitOne hashHex fs skip) initState with hst
  have hinv := foldl_submitOne_inv hashHex fs skip (walkPaths entries) initState
    (by simp [initState]) (by simp [initState])
  rw [← hst] at hinv
  have hfin := drainN_inv st.futures.length st hinv.1 hinv.2
  have hlen := drainN_length st.futures.length st
  have hnil : (drainN st.futures.length st).futures = [] :=
    List.length_eq_zero.mp (by rw [hlen]; omega)
  refine ⟨?_, hfin.2, hnil⟩
  have h1 := hfin.1
  rw [hnil] at h1
  simpa using h1

/-- C3 (counterexample): the claim that files under an excluded mount are
never submitted fails.  With excluded mount /proc and the walk discovering
/proc/cpuinfo, the submission loop submits a task for it (exclusion is
only checked inside the worker): after the walk the future list contains
the excluded path and submitted = 1, not 0. -/
theorem C3_counterexample :
    path_on_skipped_mount "/proc/cpuinfo" ["/proc"] = true
    ∧ ((walkPaths [("/proc", ["cpuinfo"])]).foldl
        (submitOne (fun _ => "x") ⟨fun _ => true, fun _ => some []⟩ ["/proc"])
        initState).futures = [("/proc/cpuinfo", none)]
    ∧ ((walkPaths [("/proc", ["cpuinfo"])]).foldl
        (submitOne (fun _ => "x") ⟨fun _ => true, fun _ => some []⟩ ["/proc"])
        initState).submitted = 1 := by
  decide

/-- C3 (amended): a file under an excluded mount is still submitted, but
the worker skip makes its task return a null digest, and draining that
result increments done and errors and writes no output record — so
excluded files are counted in submitted (and in errors), never in the
records. -/
theorem C3_worker_skips_excluded (hashHex : List Nat → String) (fs : FS)
    (path : String) (skip : List String) (st : RunState)
    (h : path_on_skipped_mount path skip = true) :
    hash_one hashHex fs path skip = (path, none)
    ∧ drainStep st (path, none)
        = { st with errors := st.errors + 1, done := st.done + 1 } := by
  constructor
  · simp [hash_one, h]
  · simp [drainStep, pyTruthy]

/-- C3 (witness): the amended claim at the concrete excluded path. -/
theorem C3_witness :
    hash_one (fun _ => "x") ⟨fun _ => true, fun _ => some []⟩ "/proc/cpuinfo"
        ["/proc"] = ("/proc/cpuinfo", none)
    ∧ drainStep initState ("/proc/cpuinfo", none)
        = { initState with errors := initState.errors + 1,
                           done := initState.done + 1 } :=
  C3_worker_skips_excluded (fun _ => "x") ⟨fun _ => true, fun _ => some []⟩
    "/proc/cpuinfo" ["/proc"] initState (by decide)

/-- C4 (counterexample): the end-to-end scenario's counters fail.  The
symbolic link lands in os.walk's filenames (the dir/nondir split follows
symlinks) and is submitted, and its worker skip is counted as an error:
the run yields submitted = 4, done = 4, errors = 1, not the claimed
submitted = 3, done = 3, errors = 0. -/
theorem C4_counterexample :
    (hash_all (fun _ => "h") fs4 [] entries4).submitted = 4
    ∧ (hash_all (fun _ => "h") fs4 [] entries4).done = 4
    ∧ (hash_all (fun _ => "h") fs4 [] entries4).errors = 1
    ∧ ¬ ((hash_all (fun _ => "h") fs4 [] entries4).submitted = 3
         ∧ (hash_all (fun _ => "h") fs4 [] entries4).done = 3
         ∧ (hash_all (fun _ => "h") fs4 [] entries4).errors = 0) := by
  decide

/-- C4 (amended): on the scenario tree the run writes exactly 3 output
records — for a.txt, b.txt and sub/c.txt, with a.txt and b.txt carrying
the identical digest of "hello" — and no record for the link; but the
counters are submitted = 4, done = 4, errors = 1, because the symlink is
submitted and its worker skip counts as a non-success. -/
theorem C4_scenario (hashHex : List Nat → String)
    (hne : ∀ bs, hashHex bs ≠ "") :
    (hash_all hashHex fs4 [] entries4).records
      = [formatRecord (hashHex helloBytes) false "DUMMY_REASON",
         formatRecord (hashHex helloBytes) false "DUMMY_REASON",
         formatRecord (hashHex worldBytes) false "DUMMY_REASON"]
    ∧ (hash_all hashHex fs4 [] entries4).submitted = 4
    ∧ (hash_all hashHex fs4 [] entries4).done = 4
    ∧ (hash_all hashHex fs4 [] entries4).errors = 1 := by
  have ha := hne helloBytes
  have hw := hne worldBytes
  have hwp : walkPaths entries4
      = ["/r/a.txt", "/r/b.txt", "/r/link", "/r/sub/c.txt"] := by decide
  have hrA : is_regular_file fs4 "/r/a.txt" = true := by decide
  have hrB : is_regular_file fs4 "/r/b.txt" = true := by decide
  have hrL : is_regular_file fs4 "/r/link" = false := by decide
  have hrC : is_regular_file fs4 "/r/sub/c.txt" = true := by decide
  have hdA : fs4.read "/r/a.txt" = some helloBytes := by decide
  have hdB : fs4.read "/r/b.txt" = some helloBytes := by decide
  have hdC : fs4.read "/r/sub/c.txt" = some worldBytes := by decide
  have hA : hash_one hashHex fs4 "/r/a.txt" []
      = ("/r/a.txt", some (hashHex helloBytes)) := by
    simp [hash_one, path_on_skipped_mount, hrA, blake2b_file, hdA]
  have hB : hash_one hashHex fs4 "/r/b.txt" []
      = ("/r/b.txt", some (hashHex helloBytes)) := by
    simp [hash_one, path_on_skipped_mount, hrB, blake2b_file, hdB]
  have hL : hash_one hashHex fs4 "/r/link" [] = ("/r/link", none) := by
    simp [hash_one, path_on_skipped_mount, hrL]
  have hC : hash_one hashHex fs4 "/r/sub/c.txt" []
      = ("/r/sub/c.txt", some (hashHex worldBytes)) := by
    simp [hash_one, path_on_skipped_mount, hrC, blake2b_file, hdC]
  rw [show hash_all hashHex fs4 [] entries4
      = drainAll ((walkPaths entries4).foldl (submitOne hashHex fs4 []) initState)
      from rfl, hwp]
  simp [submitOne, SUBMIT_BATCH, initState, hA, hB, hL, hC, drainAll, drainN,
        drainStep, pyTruthy, check_hash, ha, hw]

/-- C4 (witness): the amended scenario at the concrete digest function
that maps every byte content to "h". -/
theorem C4_witness :
    (hash_all (fun _ => "h") fs4 [] entries4).records
      = [formatRecord "h" false "DUMMY_REASON",
         formatRecord "h" false "DUMMY_REASON",
         formatRecord "h" false "DUMMY_REASON"]
    ∧ (hash_all (fun _ => "h") fs4 [] entries4).submitted = 4
    ∧ (hash_all (fun _ => "h") fs4 [] entries4).done = 4
    ∧ (hash_all (fun _ => "h") fs4 [] entries4).errors = 1 :=
  C4_scenario (fun _ => "h") (by
    intro bs
    show ("h" : String) ≠ ""
    decide)

/-- C5 (counterexample): a mountpoint equal to the filesystem root breaks
the claimed characterization: /etc lies strictly inside the excluded
mountpoint "/" under the spec's separator-bounded notion, yet
path_on_skipped_mount returns false (it tests the prefix "//"). -/
theorem C5_counterexample :
    under_mount_spec "/etc" "/" = true
    ∧ path_on_skipped_mount "/etc" ["/"] = false := by
  decide

/-- C5 (amended): path_on_skipped_mount returns true iff the absolute path
equals an excluded mountpoint or starts with mountpoint-plus-separator;
in particular /mnt/foo does not exclude /mnt/foobar but does exclude
/mnt/foo/bar.  For a mountpoint already ending in the separator — the
filesystem root "/" — only the exact path is matched, so paths strictly
inside the root are not excluded. -/
theorem C5_separator_bounded :
    (∀ (ap : String) (ms : List String),
      path_on_skipped_mount ap ms = true
        ↔ ∃ m ∈ ms, ap = m ∨ pyStartswith ap (m ++ osSep) = true)
    ∧ path_on_skipped_mount "/mnt/foobar" ["/mnt/foo"] = false
    ∧ path_on_skipped_mount "/mnt/foo/bar" ["/mnt/foo"] = true := by
  refine ⟨?_, by decide, by decide⟩
  intro ap ms
  simp [path_on_skipped_mount, List.any_eq_true]

/-- C6: a read failure makes blake2b_file return null rather than raising
past the pool boundary; hash_one always returns a (path, digest-or-null)
pair for the submitted path; and draining a null result only increments
the error counter (and done), writing no record. -/
theorem C6_error_containment (hashHex : List Nat → String) (fs : FS)
    (path : String) (skip : List String) (st : RunState) :
    (fs.read path = none → blake2b_file hashHex fs path = none)
    ∧ (hash_one hashHex fs path skip).1 = path
    ∧ drainStep st (path, none)
        = { st with errors := st.errors + 1, done := st.done + 1 } := by
  refine ⟨?_, ?_, ?_⟩
  · intro h; simp [blake2b_file, h]
  · unfold hash_one; split_ifs <;> rfl
  · simp [drainStep, pyTruthy]

/-- C6 (witness): the containment at a concrete filesystem whose every
read fails. -/
theorem C6_witness :
    blake2b_file (fun _ => "x") ⟨fun _ => true, fun _ => none⟩ "/a" = none
    ∧ (hash_one (fun _ => "x") ⟨fun _ => true, fun _ => none⟩ "/a" []).1
        = "/a" :=
  ⟨(C6_error_containment (fun _ => "x") ⟨fun _ => true, fun _ => none⟩ "/a" []
      initState).1 rfl,
   (C6_error_containment (fun _ => "x") ⟨fun _ => true, fun _ => none⟩ "/a" []
      initState).2.1⟩

/-- C7: a zero-byte regular file not under an excluded mount yields the
well-defined empty-input digest (not null, not skipped), and draining that
result appends exactly one record and leaves the error counter unchanged. -/
theorem C7_empty_file_digest (hashHex : List Nat → String) (fs : FS)
    (path : String) (skip : List String) (st : RunState)
    (h0 : hashHex [] ≠ "") (h1 : fs.read path = some [])
    (h2 : path_on_skipped_mount path skip = false)
    (h3 : is_regular_file fs path = true) :
    hash_one hashHex fs path skip = (path, some (hashHex []))
    ∧ drainStep st (path, some (hashHex []))
        = { st with
            records := st.records ++ [formatRecord (hashHex []) false "DUMMY_REASON"],
            done := st.done + 1 } := by
  constructor
  · simp [hash_one, h2, h3, blake2b_file, h1]
  · simp [drainStep, pyTruthy, h0, check_hash]

/-- C7 (witness): the empty-file property at a concrete filesystem with a
zero-byte file and the digest function returning "e". -/
theorem C7_witness :
    hash_one (fun _ => "e") ⟨fun _ => true, fun _ => some []⟩ "/z" []
      = ("/z", some "e")
    ∧ drainStep initState ("/z", some "e")
        = { initState with
            records := initState.records ++ [formatRecord "e" false "DUMMY_REASON"],
            done := initState.done + 1 } :=
  C7_empty_file_digest (fun _ => "e") ⟨fun _ => true, fun _ => some []⟩ "/z" []
    initState (by decide) rfl (by decide) (by decide)

/-- C8: every drain of a completed result either writes nothing (null or
empty digest) or appends exactly one line of the form
digest ++ " FALSE DUMMY_REASON\n" — the check_hash stub's fixed negative
verdict and fixed placeholder reason. -/
theorem C8_output_line_format (st : RunState) (r : String × Option String) :
    (drainStep st r).records = st.records
    ∨ ∃ d, r.2 = some d ∧ d ≠ ""
        ∧ (drainStep st r).records
            = st.records ++ [d ++ " FALSE DUMMY_REASON\n"] := by
  unfold drainStep
  cases hr : r.2 with
  | none => left; simp [pyTruthy, hr]
  | some s =>
    by_cases hs : s = ""
    · left; simp [pyTruthy, hr, hs]
    · right
      refine ⟨s, rfl, hs, ?_⟩
      simp [pyTruthy, hr, hs, check_hash, formatRecord_stub]

/-- C9: mount exclusion is monotonic under path extension: if the absolute
path p is excluded then so is p ++ separator ++ s for every non-empty
relative suffix s with no parent-directory components. -/
theorem C9_exclusion_monotone (ms : List String) (p s : String)
    (hp : path_on_skipped_mount p ms = true) (_hs : s ≠ "")
    (_hnp : ((splitSep s.data).all (fun c => c ≠ ['.', '.'])) = true) :
    path_on_skipped_mount (p ++ osSep ++ s) ms = true := by
  simp only [path_on_skipped_mount, List.any_eq_true, Bool.or_eq_true,
    beq_iff_eq, pyStartswith] at hp ⊢
  obtain ⟨m, hm, hc⟩ := hp
  refine ⟨m, hm, Or.inr ?_⟩
  have hdata : (p ++ osSep ++ s).data = (p ++ osSep).data ++ s.data :=
    String.data_append _ _
  rcases hc with hc | hc
  · subst hc
    rw [hdata]
    exact isPrefixOf_self_append _ _
  · rw [hdata]
    refine isPrefixOf_append_right _ _ _ ?_
    rw [String.data_append]
    exact isPrefixOf_append_right _ _ _ hc

/-- C9 (witness): monotonicity at the concrete excluded mount /proc and
the suffix "cpuinfo". -/
theorem C9_witness :
    path_on_skipped_mount ("/proc" ++ osSep ++ "cpuinfo") ["/proc"] = true :=
  C9_exclusion_monotone ["/proc"] "/proc" "cpuinfo" (by decide) (by decide)
    (by decide)

/-- C10: print_entropy handles every case of its public interface with a
single printed line and no escaping exception: a missing file argument
prints the usage line; an unreadable file prints the error line; an empty
file reports entropy 0.0 before any entropy computation; and only a
non-empty readable file yields the Shannon-entropy report over its byte
frequencies. -/
theorem C10_entropy_total (fs : FS) (argv : List String) :
    (argv.length < 2 →
      print_entropy fs argv = .usage (basename (argv.getD 0 "")))
    ∧ (∀ p, 2 ≤ argv.length → argv.getD 1 "" = p → fs.read p = none →
        print_entropy fs argv = .readError p)
    ∧ (∀ p, 2 ≤ argv.length → argv.getD 1 "" = p → fs.read p = some [] →
        print_entropy fs argv = .emptyFile p)
    ∧ (∀ p data, 2 ≤ argv.length → argv.getD 1 "" = p →
        fs.read p = some data → data ≠ [] →
        print_entropy fs argv = .report p (counter data) data.length) := by
  refine ⟨?_, ?_, ?_, ?_⟩
  · intro h
    simp [print_entropy, h]
  · intro p hlen hp hread
    subst hp
    simp only [List.getD, List.get?_eq_getElem?] at hread
    simp [print_entropy, Nat.not_lt.mpr hlen, hread, List.getD]
  · intro p hlen hp hread
    subst hp
    simp only [List.getD, List.get?_eq_getElem?] at hread
    simp [print_entropy, Nat.not_lt.mpr hlen, hread, List.getD]
  · intro p data hlen hp hread hne
    subst hp
    simp only [List.getD, List.get?_eq_getElem?] at hread
    simp [print_entropy, Nat.not_lt.mpr hlen, hread, hne, List.getD]

/-- C10 (witness): all four interface cases at concrete argument vectors
and filesystems (no argument; unreadable file; empty file; the bytes of
"hello"). -/
theorem C10_witness :
    print_entropy ⟨fun _ => true, fun _ => none⟩ ["entropy.py"]
      = .usage (basename (["entropy.py"].getD 0 ""))
    ∧ print_entropy ⟨fun _ => true, fun _ => none⟩ ["entropy.py", "/f"]
        = .readError "/f"
    ∧ print_entropy ⟨fun _ => true, fun _ => some []⟩ ["entropy.py", "/f"]
        = .emptyFile "/f"
    ∧ print_entropy ⟨fun _ => true, fun _ => some helloBytes⟩
        ["entropy.py", "/f"]
        = .report "/f" (counter helloBytes) helloBytes.length :=
  ⟨(C10_entropy_total ⟨fun _ => true, fun _ => none⟩ ["entropy.py"]).1
      (by decide),
   (C10_entropy_total ⟨fun _ => true, fun _ => none⟩
      ["entropy.py", "/f"]).2.1 "/f" (by decide) rfl rfl,
   (C10_entropy_total ⟨fun _ => true, fun _ => some []⟩
      ["entropy.py", "/f"]).2.2.1 "/f" (by decide) rfl rfl,
   (C10_entropy_total ⟨fun _ => true, fun _ => some helloBytes⟩
      ["entropy.py", "/f"]).2.2.2 "/f" helloBytes (by decide) rfl rfl
      (by decide)⟩

end AVScan
